import Mathlib

/-!
Verification of the uataq repository core: the `TimeRange` abstraction
(`src/uataq/timerange.py` and its duplicate inside
`src/uataq/filesystem/core.py`), the file filtering stage
(`filter_datafiles`) and the parse orchestration (`parse_datafiles`).

Python `datetime.datetime` values are modelled by the `Datetime` structure
below (proleptic Gregorian calendar, `MINYEAR = 1`, `MAXYEAR = 9999`);
fallible Python code returns `Except`/`Option`.
-/

set_option maxRecDepth 4096
set_option maxHeartbeats 1600000

namespace Uataq

/-- Model of Python `datetime.datetime` at second resolution (the code never
constructs sub-second values).  Validity of the fields is a separate
predicate, mirroring the fact that the `dt.datetime` constructor validates
its arguments. -/
structure Datetime where
  year : Nat
  month : Nat
  day : Nat
  hour : Nat
  minute : Nat
  second : Nat
deriving DecidableEq, Repr

/-- Python leap-year rule (`calendar.isleap`). -/
def isLeapYear (y : Nat) : Bool :=
  y % 4 == 0 && (y % 100 != 0 || y % 400 == 0)

/-- Days in a month of the proleptic Gregorian calendar (only queried for
months 1..12 by validated constructions). -/
def daysInMonth (y m : Nat) : Nat :=
  if m = 2 then (if isLeapYear y then 29 else 28)
  else if m = 4 ∨ m = 6 ∨ m = 9 ∨ m = 11 then 30
  else 31

/-- The comparison key of a datetime: Python compares datetimes
field-lexicographically. -/
def Datetime.fields (t : Datetime) : List Nat :=
  [t.year, t.month, t.day, t.hour, t.minute, t.second]

/-- Lexicographic less-or-equal on lists of naturals. -/
def lexLe : List Nat → List Nat → Bool
  | [], _ => true
  | _ :: _, [] => false
  | a :: as, b :: bs => if a < b then true else if b < a then false else lexLe as bs

/-- Python ordering on datetimes (field-lexicographic). -/
def Datetime.le (a b : Datetime) : Bool :=
  lexLe a.fields b.fields

/-- The argument validation performed by the Python `dt.datetime`
constructor. -/
def Datetime.isValid (t : Datetime) : Bool :=
  1 ≤ t.year && t.year ≤ 9999 && 1 ≤ t.month && t.month ≤ 12 &&
  1 ≤ t.day && t.day ≤ daysInMonth t.year t.month &&
  t.hour ≤ 23 && t.minute ≤ 59 && t.second ≤ 59

/-- `dt.datetime(year, month, day, hour)`: validates and builds a datetime
(minute and second default to 0), or fails with `ValueError`. -/
def mkDatetime (y mo d h : Nat) : Option Datetime :=
  if (Datetime.mk y mo d h 0 0).isValid then some (Datetime.mk y mo d h 0 0)
  else none

/-- `t + dt.timedelta(days=1)`: calendar successor day; `none` models the
`OverflowError` past year 9999. -/
def Datetime.addOneDay (t : Datetime) : Option Datetime :=
  if t.day < daysInMonth t.year t.month then some { t with day := t.day + 1 }
  else if t.month < 12 then some { t with month := t.month + 1, day := 1 }
  else if t.year < 9999 then some { t with year := t.year + 1, month := 1, day := 1 }
  else none

/-- `t + dt.timedelta(hours=1)`. -/
def Datetime.addOneHour (t : Datetime) : Option Datetime :=
  if t.hour < 23 then some { t with hour := t.hour + 1 }
  else Datetime.addOneDay { t with hour := 0 }

/-- Number of days before January 1 of year `y` (Python
`datetime._days_before_year`). -/
def daysBeforeYear (y : Nat) : Nat :=
  365 * (y - 1) + (y - 1) / 4 - (y - 1) / 100 + (y - 1) / 400

/-- Number of days in year `y` before the first day of month `m`. -/
def daysBeforeMonth (y m : Nat) : Nat :=
  (List.range (m - 1)).foldl (fun acc i => acc + daysInMonth y (i + 1)) 0

/-- Python `datetime.toordinal`. -/
def Datetime.toOrdinal (t : Datetime) : Nat :=
  daysBeforeYear t.year + daysBeforeMonth t.year t.month + t.day

/-- Seconds since the (proleptic) epoch; datetime subtraction followed by
`timedelta.total_seconds()` is the difference of these values. -/
def Datetime.toSeconds (t : Datetime) : Int :=
  (((t.toOrdinal * 24 + t.hour) * 60 + t.minute) * 60 + t.second : Nat)

/-- The Python exceptions the TimeRange code can raise (all `ValueError`
except `overflow`, which models `OverflowError`, and `assertionFailed`,
which models `AssertionError`). -/
inductive PyErr
  | invalidTimeString
  | dateOutOfRange
  | overflow
  | invalidTimeRangeFormat
  | invalidStartFormat
  | invalidStopFormat
  | assertionFailed
  | bothBoundsRequired
deriving DecidableEq, Repr

/-- The regex `\d` restricted to ASCII, where it coincides with `0-9`.
The source compiles the pattern against `str` without `re.ASCII`, so the
real `\d` also matches every other Unicode decimal digit (and `int()`
parses those); this embedding therefore models the matcher faithfully on
ASCII input only, and the parse-error characterization below is stated
under an explicit ASCII restriction. -/
def charIsDigit (c : Char) : Bool :=
  '0' ≤ c && c ≤ '9'

/-- The regex class `\s` (inside `[T\s]`) restricted to ASCII, where it is
exactly this six-character set; the real Unicode `\s` also matches
non-ASCII whitespace such as U+00A0, outside the fragment modelled here. -/
def isPySpace (c : Char) : Bool :=
  c = ' ' || c = '\t' || c = '\n' || c = '\r' || c = '\x0b' || c = '\x0c'

/-- Exactly `n` leading digits, returning them and the rest of the input. -/
def takeDigits : Nat → List Char → Option (List Char × List Char)
  | 0, cs => some ([], cs)
  | _ + 1, [] => none
  | n + 1, c :: cs =>
    if charIsDigit c then
      match takeDigits n cs with
      | some (ds, rest) => some (c :: ds, rest)
      | none => none
    else none

/-- An optional group of exactly `n` digits (greedy). -/
def tryDigits (n : Nat) (cs : List Char) : Option (List Char) × List Char :=
  match takeDigits n cs with
  | some (ds, rest) => (some ds, rest)
  | none => (none, cs)

/-- An optional single character satisfying `p` (greedy). -/
def skipOpt (p : Char → Bool) (cs : List Char) : List Char :=
  match cs with
  | c :: rest => if p c then rest else cs
  | [] => []

/-- The captured groups of the anchored search pattern
`(\d{4})-?(\d{2})?-?(\d{2})?[T\s]?(\d{1,2})?:?(?:\d{2})?`:
a captured group is `none` when absent, and a present group is always a
nonempty (hence truthy) digit string. -/
structure IsoComponents where
  year : List Char
  month : Option (List Char)
  day : Option (List Char)
  hour : Option (List Char)
deriving DecidableEq, Repr

/-- `re.match` of the pattern above: anchored at the start, matching
greedily; since every piece after the year group is optional the engine
never backtracks, and trailing input is ignored.  The trailing `:?` and
`(?:\d{2})?` pieces capture nothing, so they are not modelled.  Digit and
whitespace classes are the ASCII restrictions above, so this matcher
agrees with the source exactly on ASCII input. -/
def matchIso (cs : List Char) : Option IsoComponents :=
  match takeDigits 4 cs with
  | none => none
  | some (ys, r0) =>
    let r1 := skipOpt (fun c => c = '-') r0
    let mo := (tryDigits 2 r1).1
    let r3 := skipOpt (fun c => c = '-') (tryDigits 2 r1).2
    let dy := (tryDigits 2 r3).1
    let r5 := skipOpt (fun c => c = 'T' || isPySpace c) (tryDigits 2 r3).2
    let hr :=
      match takeDigits 2 r5 with
      | some (ds, _) => some ds
      | none => (tryDigits 1 r5).1
    some ⟨ys, mo, dy, hr⟩

/-- `int` on a captured digit string. -/
def natOfDigits (ds : List Char) : Nat :=
  ds.foldl (fun acc c => acc * 10 + (c.toNat - 48)) 0

/-- The shared value space of both `TimeRange` classes: a pair of optional
datetimes held by the `_start`/`_stop` slots. -/
structure TimeRange where
  start : Option Datetime
  stop : Option Datetime
deriving DecidableEq, Repr

/-- A Python value passed as a `start`/`stop` argument or as an element of
a range pair: `none`, an ISO string, a `datetime`, a `numpy.datetime64`
(carrying the instant it converts to), or any other object. -/
inductive TimeObject
  | none
  | str (s : String)
  | datetime (d : Datetime)
  | npdatetime (d : Datetime)
  | other
deriving DecidableEq, Repr

/-- Python truthiness of such a value (datetimes and arbitrary objects are
truthy, `None` is falsy, a string is truthy iff nonempty). -/
def TimeObject.truthy : TimeObject → Bool
  | .none => false
  | .str s => !s.isEmpty
  | _ => true

/-- A Python value passed as the `time_range` argument: an existing
`TimeRange` instance, a string, a list/tuple of length two, a list/tuple of
another length, a slice, `None`, or any other object. -/
inductive TimeRangeInput
  | timeRange (tr : TimeRange)
  | str (s : String)
  | pair (a b : TimeObject)
  | listOther (l : List TimeObject)
  | sliceIn (a b : TimeObject)
  | noneIn
  | otherIn
deriving DecidableEq, Repr

/-- Python truthiness of a `time_range` argument (slices, `TimeRange`
instances and other objects are truthy; lists/tuples are truthy iff
nonempty). -/
def TimeRangeInput.truthy : TimeRangeInput → Bool
  | .timeRange _ => true
  | .str s => !s.isEmpty
  | .pair _ _ => true
  | .listOther l => !l.isEmpty
  | .sliceIn _ _ => true
  | .noneIn => false
  | .otherIn => true

/-- Reinject an optional datetime (read off an existing `TimeRange`) as a
value for the setters. -/
def ofOptDatetime : Option Datetime → TimeObject
  | Option.none => TimeObject.none
  | some d => TimeObject.datetime d

namespace Timerange

/-- `TimeRange.parse_iso` of `uataq/timerange.py`: regex-match the string,
default missing month/day/hour to 1/1/0, build the start instant, and when
`inclusive` compute the start of the next unit at the finest granularity
present. -/
def parse_iso (s : String) (inclusive : Bool) : Except PyErr Datetime :=
  match matchIso s.data with
  | Option.none => .error .invalidTimeString
  | some c =>
    let year := natOfDigits c.year
    let month := match c.month with | some ds => natOfDigits ds | Option.none => 1
    let day := match c.day with | some ds => natOfDigits ds | Option.none => 1
    let hour := match c.hour with | some ds => natOfDigits ds | Option.none => 0
    match mkDatetime year month day hour with
    | Option.none => .error .dateOutOfRange
    | some start =>
      if inclusive then
        if c.month.isNone then
          match mkDatetime (year + 1) 1 1 0 with
          | some stop => .ok stop
          | Option.none => .error .dateOutOfRange
        else if c.month.isSome && c.day.isNone then
          let mm := if month < 12 then month + 1 else 1
          let yyyy := if month == 12 then year + 1 else year
          match mkDatetime yyyy mm 1 0 with
          | some stop => .ok stop
          | Option.none => .error .dateOutOfRange
        else if c.day.isSome && c.hour.isNone then
          match start.addOneDay with
          | some stop => .ok stop
          | Option.none => .error .overflow
        else if c.hour.isSome then
          match start.addOneHour with
          | some stop => .ok stop
          | Option.none => .error .overflow
        else .error .invalidTimeString
      else .ok start

/-- The `start` property setter. -/
def startSetter : TimeObject → Except PyErr (Option Datetime)
  | .none => .ok Option.none
  | .datetime d => .ok (some d)
  | .str s => (parse_iso s false).map some
  | .npdatetime d => .ok (some d)
  | .other => .error .invalidStartFormat

/-- The `stop` property setter (strings are parsed with `inclusive=True`). -/
def stopSetter : TimeObject → Except PyErr (Option Datetime)
  | .none => .ok Option.none
  | .datetime d => .ok (some d)
  | .str s => (parse_iso s true).map some
  | .npdatetime d => .ok (some d)
  | .other => .error .invalidStopFormat

/-- `TimeRange.__init__`: asserts that a range and explicit bounds are not
both given, then resolves the start/stop values from the `time_range`
argument (copy, string, pair, slice) or from the explicit arguments, and
runs both setters. -/
def mkTimeRange (time_range : TimeRangeInput) (start stop : TimeObject) :
    Except PyErr TimeRange := do
  if time_range.truthy && (start.truthy || stop.truthy) then
    throw .assertionFailed
  let (s, e) ←
    (match time_range with
    | .timeRange tr => Except.ok (ofOptDatetime tr.start, ofOptDatetime tr.stop)
    | _ =>
      if !(time_range.truthy || start.truthy || stop.truthy) then
        Except.ok (TimeObject.none, TimeObject.none)
      else if time_range.truthy then
        match time_range with
        | .str str => do
          let a ← parse_iso str false
          let b ← parse_iso str true
          Except.ok (TimeObject.datetime a, TimeObject.datetime b)
        | .pair a b => Except.ok (a, b)
        | .sliceIn a b => Except.ok (a, b)
        | _ => Except.error .invalidTimeRangeFormat
      else Except.ok (start, stop) :
      Except PyErr (TimeObject × TimeObject))
  let s' ← startSetter s
  let e' ← stopSetter e
  return ⟨s', e'⟩

/-- `TimeRange.__contains__` (datetimes are always truthy in Python, so the
`any`/`not` tests reduce to `None` checks). -/
def containsDt (tr : TimeRange) (item : Datetime) : Bool :=
  match tr.start, tr.stop with
  | Option.none, Option.none => true
  | Option.none, some b => Datetime.le item b
  | some a, Option.none => Datetime.le a item
  | some a, some b => Datetime.le a item && Datetime.le item b

/-- `TimeRange.total_seconds`. -/
def total_seconds (tr : TimeRange) : Except PyErr Int :=
  match tr.start, tr.stop with
  | some a, some b => .ok (b.toSeconds - a.toSeconds)
  | _, _ => .error .bothBoundsRequired

end Timerange

namespace FsCore

/-- `TimeRange.parse_iso` of the duplicated class in
`uataq/filesystem/core.py` (same regex, same branches). -/
def parse_iso (s : String) (inclusive : Bool) : Except PyErr Datetime :=
  match matchIso s.data with
  | Option.none => .error .invalidTimeString
  | some c =>
    let year := natOfDigits c.year
    let month := match c.month with | some ds => natOfDigits ds | Option.none => 1
    let day := match c.day with | some ds => natOfDigits ds | Option.none => 1
    let hour := match c.hour with | some ds => natOfDigits ds | Option.none => 0
    match mkDatetime year month day hour with
    | Option.none => .error .dateOutOfRange
    | some start =>
      if inclusive then
        if c.month.isNone then
          match mkDatetime (year + 1) 1 1 0 with
          | some stop => .ok stop
          | Option.none => .error .dateOutOfRange
        else if c.month.isSome && c.day.isNone then
          let mm := if month < 12 then month + 1 else 1
          let yyyy := if month == 12 then year + 1 else year
          match mkDatetime yyyy mm 1 0 with
          | some stop => .ok stop
          | Option.none => .error .dateOutOfRange
        else if c.day.isSome && c.hour.isNone then
          match start.addOneDay with
          | some stop => .ok stop
          | Option.none => .error .overflow
        else if c.hour.isSome then
          match start.addOneHour with
          | some stop => .ok stop
          | Option.none => .error .overflow
        else .error .invalidTimeString
      else .ok start

/-- The duplicated `start` setter. -/
def startSetter : TimeObject → Except PyErr (Option Datetime)
  | .none => .ok Option.none
  | .datetime d => .ok (some d)
  | .str s => (parse_iso s false).map some
  | .npdatetime d => .ok (some d)
  | .other => .error .invalidStartFormat

/-- The duplicated `stop` setter. -/
def stopSetter : TimeObject → Except PyErr (Option Datetime)
  | .none => .ok Option.none
  | .datetime d => .ok (some d)
  | .str s => (parse_iso s true).map some
  | .npdatetime d => .ok (some d)
  | .other => .error .invalidStopFormat

/-- The duplicated `TimeRange.__init__`. -/
def mkTimeRange (time_range : TimeRangeInput) (start stop : TimeObject) :
    Except PyErr TimeRange := do
  if time_range.truthy && (start.truthy || stop.truthy) then
    throw .assertionFailed
  let (s, e) ←
    (match time_range with
    | .timeRange tr => Except.ok (ofOptDatetime tr.start, ofOptDatetime tr.stop)
    | _ =>
      if !(time_range.truthy || start.truthy || stop.truthy) then
        Except.ok (TimeObject.none, TimeObject.none)
      else if time_range.truthy then
        match time_range with
        | .str str => do
          let a ← parse_iso str false
          let b ← parse_iso str true
          Except.ok (TimeObject.datetime a, TimeObject.datetime b)
        | .pair a b => Except.ok (a, b)
        | .sliceIn a b => Except.ok (a, b)
        | _ => Except.error .invalidTimeRangeFormat
      else Except.ok (start, stop) :
      Except PyErr (TimeObject × TimeObject))
  let s' ← startSetter s
  let e' ← stopSetter e
  return ⟨s', e'⟩

/-- The duplicated `TimeRange.__contains__`. -/
def containsDt (tr : TimeRange) (item : Datetime) : Bool :=
  match tr.start, tr.stop with
  | Option.none, Option.none => true
  | Option.none, some b => Datetime.le item b
  | some a, Option.none => Datetime.le a item
  | some a, some b => Datetime.le a item && Datetime.le item b

/-- The duplicated `TimeRange.total_seconds`. -/
def total_seconds (tr : TimeRange) : Except PyErr Int :=
  match tr.start, tr.stop with
  | some a, some b => .ok (b.toSeconds - a.toSeconds)
  | _, _ => .error .bothBoundsRequired

/-- The errors raised by the filter/parse orchestration:
`ReaderError` for an empty selection, the two `pd.concat` `ValueError`s,
the `multiprocessing.Pool` size `ValueError`, the xarray
`NotImplementedError` and the unknown-driver `ValueError`. -/
inductive FsErr
  | readerError
  | noObjectsToConcat
  | allObjectsNone
  | poolSize
  | notImplementedXarray
  | invalidDriver
deriving DecidableEq, Repr

/-- The parser-specific exception (`uataq.errors.ParserError`; the module
only declares the class, spec section 7 describes it). -/
inductive ParserError
  | mk
deriving DecidableEq, Repr

/-- A parsed table: rows with an optional `Time_UTC` field (missing models
`NaT`) and an opaque payload identifying the row. -/
abbrev Table := List (Option Datetime × Int)

/-- The `file_freq` granularity of a `DataFile` variant (the `pd.Period`
frequency derived from the file name). -/
inductive FileFreq
  | year
  | month
  | day
  | hour
deriving DecidableEq, Repr

/-- `pd.Period(t, freq).start_time`: the start instant of the period of the
given frequency containing `t`. -/
def truncTo (f : FileFreq) (t : Datetime) : Datetime :=
  match f with
  | .year => ⟨t.year, 1, 1, 0, 0, 0⟩
  | .month => ⟨t.year, t.month, 1, 0, 0, 0⟩
  | .day => ⟨t.year, t.month, t.day, 0, 0, 0⟩
  | .hour => ⟨t.year, t.month, t.day, t.hour, 0, 0⟩

deriving instance DecidableEq for Except

/-- A `DataFile`: its path, the start instant of the calendar period its
name encodes (`period.start_time`), and the outcome of its abstract
`parse()` method. -/
structure DataFile where
  path : String
  period : Datetime
  parseResult : Except ParserError Table
deriving DecidableEq, Repr

/-- The abstract `parse()` method. -/
def DataFile.parse (f : DataFile) : Except ParserError Table :=
  f.parseResult

/-- Ordering of files by period (the sorted `period` index). -/
def periodRel (u v : DataFile) : Prop :=
  Datetime.le u.period v.period = true

instance : DecidableRel periodRel :=
  fun u v => inferInstanceAs (Decidable (Datetime.le u.period v.period = true))

/-- Substring test at the head of a character list. -/
def subAt : List Char → List Char → Bool
  | [], _ => true
  | _ :: _, [] => false
  | p :: ps, c :: cs => p == c && subAt ps cs

/-- Python `pattern in path`: substring containment. -/
def hasSub (p : List Char) : List Char → Bool
  | [] => p.isEmpty
  | c :: cs => subAt p (c :: cs) || hasSub p cs

/-- Substring containment on strings. -/
def strContainsSub (p s : String) : Bool :=
  hasSub p.data s.data

/-- The `df.loc[time_range.start : time_range.stop]` step of
`filter_datafiles`: index the files by period, sort, and take the files
whose period lies between the periods containing the two bounds (datetime
slice bounds on a `PeriodIndex` are cast to periods at the index
frequency; label slicing is closed on both ends; an absent bound leaves
that side open). -/
def timeSelection (freq : FileFreq) (files : List DataFile) (tr : TimeRange) :
    List DataFile :=
  (List.insertionSort periodRel files).filter (fun x =>
    (match tr.start with
     | Option.none => true
     | some a => Datetime.le (truncTo freq a) x.period) &&
    (match tr.stop with
     | Option.none => true
     | some b => Datetime.le x.period (truncTo freq b)))

/-- The `if pattern:` filter (skipped for `None` and for the falsy empty
string). -/
def patternSelection (pattern : Option String) (files : List DataFile) :
    List DataFile :=
  match pattern with
  | Option.none => files
  | some p => if p.isEmpty then files else files.filter (fun x => strContainsSub p x.path)

/-- Drop the last selected file when its period starts exactly at
`time_range.stop` (a datetime never equals `None`). -/
def boundaryCorrected (files : List DataFile) (tr : TimeRange) : List DataFile :=
  match files.getLast? with
  | some lastF =>
    (match tr.stop with
     | some b => if lastF.period = b then files.dropLast else files
     | Option.none => files)
  | Option.none => files

/-- The final selection computed by `filter_datafiles` before the
emptiness check. -/
def selectionOf (freq : FileFreq) (files : List DataFile) (tr : TimeRange)
    (pattern : Option String) : List DataFile :=
  boundaryCorrected (patternSelection pattern (timeSelection freq files tr)) tr

/-- `filter_datafiles`: time filter, pattern filter, boundary correction,
then fail with `ReaderError` when nothing is left. -/
def filter_datafiles (freq : FileFreq) (files : List DataFile) (tr : TimeRange)
    (pattern : Option String) : Except FsErr (List DataFile) :=
  let sel := selectionOf freq files tr pattern
  if sel.isEmpty then .error .readerError else .ok sel

/-- `_parse_datafile`: run `parse()`, catching `ParserError` (the failed
file yields `None`). -/
def _parse_datafile (f : DataFile) : Option Table :=
  match f.parse with
  | .ok t => some t
  | .error _ => Option.none

/-- First association for an index in a worker-result list. -/
def lookupIdx {β : Type} (i : Nat) : List (Nat × β) → Option β
  | [] => Option.none
  | (j, v) :: rest => if j = i then some v else lookupIdx i rest

/-- `pool.map(func, iterable)`: workers complete in an arbitrary order
(`order` lists the indices in completion order), but the pool collates the
results back into input order. -/
def poolMap {α β : Type} (order : List Nat) (g : α → β) (xs : List α) :
    List β :=
  let results := order.filterMap (fun i => (xs.get? i).map (fun x => (i, g x)))
  (List.range xs.length).filterMap (fun i => lookupIdx i results)

/-- The `num_processes` argument: a literal `max` or an integer. -/
inductive NumProcesses
  | maxProcs
  | n (k : Int)
deriving DecidableEq, Repr

/-- The worker-count clamping of `parse_datafiles`: clamp to the CPU count
(`max` means the CPU count), then to the number of files. -/
def computeProcesses (numProcesses : NumProcesses) (cpuCount : Nat)
    (numFiles : Nat) : Int :=
  let p : Int :=
    match numProcesses with
    | .maxProcs => cpuCount
    | .n k => if k > (cpuCount : Int) then cpuCount else k
  if p > (numFiles : Int) then numFiles else p

/-- `pd.concat(datasets)`: `None` entries are silently dropped; an empty
argument list or an all-`None` list raises `ValueError`. -/
def concatDataFrames (datasets : List (Option Table)) : Except FsErr Table :=
  if datasets.isEmpty then .error .noObjectsToConcat
  else if (datasets.filterMap id).isEmpty then .error .allObjectsNone
  else .ok (datasets.filterMap id).flatten

/-- Ordering of result rows by timestamp. -/
def rowRel (u v : Datetime × Int) : Prop :=
  Datetime.le u.1 v.1 = true

instance : DecidableRel rowRel :=
  fun u v => inferInstanceAs (Decidable (Datetime.le u.1 v.1 = true))

/-- `data.dropna(subset='Time_UTC').set_index('Time_UTC').sort_index()`
followed by `data.loc[time_range.start : time_range.stop]` (datetime label
slicing, closed on both present ends). -/
def clipSort (t : Table) (tr : TimeRange) : List (Datetime × Int) :=
  (List.insertionSort rowRel (t.filterMap (fun r =>
    match r.1 with
    | some ts => some (ts, r.2)
    | Option.none => Option.none))).filter (fun r =>
    (match tr.start with
     | Option.none => true
     | some a => Datetime.le a r.1) &&
    (match tr.stop with
     | Option.none => true
     | some b => Datetime.le r.1 b))

/-- The concatenation/driver stage of `parse_datafiles`. -/
def finishParse (datasets : List (Option Table)) (tr : TimeRange)
    (driver : String) : Except FsErr (List (Datetime × Int)) :=
  if driver = "pandas" then (concatDataFrames datasets).map (fun t => clipSort t tr)
  else if driver = "xarray" then .error .notImplementedXarray
  else .error .invalidDriver

/-- `parse_datafiles`: clamp the worker count; parse sequentially when it
is 1, otherwise through a pool (whose constructor rejects a size below 1);
then concatenate, sort and clip.  `cpuCount` is the machine CPU count and
`order` the completion order of the pool workers. -/
def parse_datafiles (files : List DataFile) (tr : TimeRange)
    (numProcesses : NumProcesses) (driver : String) (cpuCount : Nat)
    (order : List Nat) : Except FsErr (List (Datetime × Int)) :=
  if computeProcesses numProcesses cpuCount files.length = 1 then
    finishParse (files.map _parse_datafile) tr driver
  else if computeProcesses numProcesses cpuCount files.length < 1 then
    .error .poolSize
  else
    finishParse (poolMap order _parse_datafile files) tr driver

/-- Whether the files are parsed sequentially in the caller's own process
or through a worker pool (the `if processes == 1` branch). -/
inductive ParseMode
  | sequential
  | parallel (k : Int)
deriving DecidableEq, Repr

/-- The execution mode chosen by `parse_datafiles`. -/
def parseMode (numProcesses : NumProcesses) (cpuCount : Nat)
    (numFiles : Nat) : ParseMode :=
  if computeProcesses numProcesses cpuCount numFiles = 1 then .sequential
  else .parallel (computeProcesses numProcesses cpuCount numFiles)

/-- The tables of the files whose `parse()` succeeds, in file order. -/
def successTables (files : List DataFile) : List Table :=
  files.filterMap _parse_datafile

end FsCore

/-- Whether an `Except` result is a success. -/
def isOkResult {ε α : Type} : Except ε α → Bool
  | .ok _ => true
  | .error _ => false

/-- All characters are ASCII digits. -/
def allDigits (l : List Char) : Bool :=
  l.all charIsDigit

/-- An optional dash separator. -/
def dashIf (b : Bool) : List Char :=
  if b then ['-'] else []

/-- A string at one of the four supported granularities `YYYY`, `YYYY-MM`,
`YYYY-MM-DD`, `YYYY-MM-DDTHH`, with optional separators (an absent
`tsep` means the hour digits follow the day digits directly). -/
inductive IsoString
  | y (ys : List Char)
  | ym (ys ms : List Char) (sep1 : Bool)
  | ymd (ys ms ds : List Char) (sep1 sep2 : Bool)
  | ymdh (ys ms ds hs : List Char) (sep1 sep2 : Bool) (tsep : Option Char)
deriving DecidableEq, Repr

/-- The rendered character list of such a string. -/
def IsoString.render : IsoString → List Char
  | .y ys => ys
  | .ym ys ms s1 => ys ++ dashIf s1 ++ ms
  | .ymd ys ms ds s1 s2 => ys ++ dashIf s1 ++ ms ++ dashIf s2 ++ ds
  | .ymdh ys ms ds hs s1 s2 t =>
    ys ++ dashIf s1 ++ ms ++ dashIf s2 ++ ds ++
      (match t with | some c => [c] | Option.none => []) ++ hs

/-- Well-formedness: the year has four digits, month/day two, the hour one
or two, and the optional hour separator is `T` or whitespace. -/
def IsoString.wf : IsoString → Bool
  | .y ys => ys.length == 4 && allDigits ys
  | .ym ys ms _ => ys.length == 4 && allDigits ys && ms.length == 2 && allDigits ms
  | .ymd ys ms ds _ _ =>
    ys.length == 4 && allDigits ys && ms.length == 2 && allDigits ms &&
    ds.length == 2 && allDigits ds
  | .ymdh ys ms ds hs _ _ t =>
    ys.length == 4 && allDigits ys && ms.length == 2 && allDigits ms &&
    ds.length == 2 && allDigits ds &&
    (hs.length == 1 || hs.length == 2) && allDigits hs &&
    (match t with
     | Option.none => true
     | some c => c == 'T' || isPySpace c)

/-- The groups such a string matches to. -/
def IsoString.components : IsoString → IsoComponents
  | .y ys => ⟨ys, Option.none, Option.none, Option.none⟩
  | .ym ys ms _ => ⟨ys, some ms, Option.none, Option.none⟩
  | .ymd ys ms ds _ _ => ⟨ys, some ms, some ds, Option.none⟩
  | .ymdh ys ms ds hs _ _ _ => ⟨ys, some ms, some ds, some hs⟩

/-- The instant denoted by matched groups: missing month/day/hour default
to 1/1/0. -/
def componentsStart (c : IsoComponents) : Datetime :=
  ⟨natOfDigits c.year,
   (match c.month with | some ds => natOfDigits ds | Option.none => 1),
   (match c.day with | some ds => natOfDigits ds | Option.none => 1),
   (match c.hour with | some ds => natOfDigits ds | Option.none => 0),
   0, 0⟩

/-- Whether the character list begins with four ASCII digits — on ASCII
input, the only requirement for the anchored regex to match. -/
def fourDigitStartList : List Char → Bool
  | a :: b :: c :: d :: _ =>
    charIsDigit a && charIsDigit b && charIsDigit c && charIsDigit d
  | _ => false

/-- Whether a string begins with four ASCII digits. -/
def fourDigitStart (s : String) : Bool :=
  fourDigitStartList s.data

/-- Whether every character of the string is ASCII: the fragment on which
the embedded regex classes agree with Python's Unicode `\d` and `\s`. -/
def isAsciiString (s : String) : Bool :=
  s.data.all (fun c => c.toNat ≤ 127)

/-- Tail of an accepted hour group per the spec wording: nothing more, or
an optional colon followed by exactly two (ignored) minute digits. -/
def specHourTail (r : List Char) : Bool :=
  if r.isEmpty then true
  else
    let r1 := skipOpt (fun c => decide (c = ':')) r
    match takeDigits 2 r1 with
    | some (_, rest) => rest.isEmpty
    | Option.none => false

/-- Modelled from the spec: "Accepts partial ISO8601: `YYYY`, `YYYY-MM`,
`YYYY-MM-DD`, `YYYY-MM-DDTHH` (with optional separators and optional
minute digits, which are ignored)" — a whole-string match of one of the
four accepted patterns, unlike the code, which only anchors the pattern at
the start of the string. -/
def specAcceptedList (cs : List Char) : Bool :=
  match takeDigits 4 cs with
  | Option.none => false
  | some (_, r0) =>
    if r0.isEmpty then true
    else
      let r1 := skipOpt (fun c => decide (c = '-')) r0
      match takeDigits 2 r1 with
      | Option.none => false
      | some (_, r2) =>
        if r2.isEmpty then true
        else
          let r3 := skipOpt (fun c => decide (c = '-')) r2
          match takeDigits 2 r3 with
          | Option.none => false
          | some (_, r4) =>
            if r4.isEmpty then true
            else
              let r5 := skipOpt (fun c => c = 'T' || isPySpace c) r4
              match takeDigits 2 r5 with
              | some (_, r6) => specHourTail r6
              | Option.none =>
                match takeDigits 1 r5 with
                | some (_, r6) => specHourTail r6
                | Option.none => false

/-- Modelled from the spec (string version of `specAcceptedList`). -/
def specAcceptedPattern (s : String) : Bool :=
  specAcceptedList s.data

/-- The selection described by the (amended) filter claim: files sorted by
period, keeping those whose period start lies between the start of the
file-frequency period containing `time_range.start` and `time_range.stop`
itself. -/
def specSelection (freq : FsCore.FileFreq) (files : List FsCore.DataFile)
    (a b : Datetime) : List FsCore.DataFile :=
  (List.insertionSort FsCore.periodRel files).filter (fun x =>
    Datetime.le (FsCore.truncTo freq a) x.period && Datetime.le x.period b)

/- Concrete fixtures used by witnesses and counterexamples. -/

/-- The string 2020. -/
def str2020 : String := "2020"

/-- The string 9999. -/
def str9999 : String := "9999"

/-- The string 2020banana: it starts with four digits, so the anchored
regex matches it, but it is not a partial ISO8601 timestamp. -/
def strBanana : String := "2020banana"

/-- The string abcd: an ASCII string with no leading digits. -/
def strAbcd : String := "abcd"

/-- Path of the January fixture file. -/
def janPath : String := "jan.dat"

/-- Path of the February fixture file. -/
def febPath : String := "feb.dat"

/-- Path of the March fixture file. -/
def marPath : String := "mar.dat"

/-- Path of the failing fixture file. -/
def badPath : String := "bad.dat"

/-- A monthly file covering January 2020. -/
def janFile : FsCore.DataFile :=
  ⟨janPath, ⟨2020, 1, 1, 0, 0, 0⟩, .ok [(some ⟨2020, 1, 5, 0, 0, 0⟩, 1)]⟩

/-- A monthly file covering February 2020. -/
def febFile : FsCore.DataFile :=
  ⟨febPath, ⟨2020, 2, 1, 0, 0, 0⟩, .ok [(some ⟨2020, 2, 5, 0, 0, 0⟩, 2)]⟩

/-- A monthly file covering March 2020. -/
def marFile : FsCore.DataFile :=
  ⟨marPath, ⟨2020, 3, 1, 0, 0, 0⟩, .ok [(some ⟨2020, 3, 5, 0, 0, 0⟩, 3)]⟩

/-- A file whose `parse()` raises a `ParserError`. -/
def badFile : FsCore.DataFile :=
  ⟨badPath, ⟨2020, 2, 1, 0, 0, 0⟩, .error .mk⟩

/-- The pandas output driver selector. -/
def pandasDriver : String := "pandas"

/-! ### Properties of the embedded code -/

theorem one_le_daysInMonth (y m : Nat) : 1 ≤ daysInMonth y m := by
  unfold daysInMonth
  split
  · split <;> omega
  · split <;> omega

theorem lexLe_refl : ∀ l : List Nat, lexLe l l = true := by
  intro l
  induction l with
  | nil => rfl
  | cons a as ih => simp [lexLe, ih]

theorem lexLe_trans : ∀ l₁ l₂ l₃ : List Nat,
    lexLe l₁ l₂ = true → lexLe l₂ l₃ = true → lexLe l₁ l₃ = true := by
  intro l₁
  induction l₁ with
  | nil => intro l₂ l₃ _ _; rfl
  | cons a as ih =>
    intro l₂ l₃ h12 h23
    cases l₂ with
    | nil => simp [lexLe] at h12
    | cons b bs =>
      cases l₃ with
      | nil => simp [lexLe] at h23
      | cons c cs =>
        simp only [lexLe] at h12 h23 ⊢
        split_ifs at h12 h23 ⊢ <;> first
          | rfl
          | omega
          | exact ih bs cs h12 h23

theorem lexLe_total : ∀ l₁ l₂ : List Nat,
    lexLe l₁ l₂ = true ∨ lexLe l₂ l₁ = true := by
  intro l₁
  induction l₁ with
  | nil => intro l₂; left; rfl
  | cons a as ih =>
    intro l₂
    cases l₂ with
    | nil => right; rfl
    | cons b bs =>
      simp only [lexLe]
      rcases Nat.lt_trichotomy a b with h | h | h
      · left; simp [h]
      · subst h
        rcases ih bs with hl | hl
        · left; simp [hl]
        · right; simp [hl]
      · right; simp [h, Nat.lt_asymm h]

theorem Datetime.le_refl (a : Datetime) : Datetime.le a a = true :=
  lexLe_refl _

theorem Datetime.le_trans {a b c : Datetime} (h₁ : Datetime.le a b = true)
    (h₂ : Datetime.le b c = true) : Datetime.le a c = true :=
  lexLe_trans _ _ _ h₁ h₂

theorem Datetime.le_total (a b : Datetime) :
    Datetime.le a b = true ∨ Datetime.le b a = true :=
  lexLe_total _ _

/-- C7: an unbounded `TimeRange` contains every timestamp; only `stop` set
means containment iff `x <= stop`; only `start` set means `start <= x`;
both set means the closed interval `start <= x <= stop`.  `TimeRange(None)`
is the unbounded range, and `TimeRange(start="2020")` has start
2020-01-01, contains 2021-01-01 and does not contain 2019-12-31. -/
theorem c7_contains_semantics :
    (∀ x : Datetime, Timerange.containsDt ⟨Option.none, Option.none⟩ x = true)
  ∧ (∀ b x : Datetime,
      Timerange.containsDt ⟨Option.none, some b⟩ x = Datetime.le x b)
  ∧ (∀ a x : Datetime,
      Timerange.containsDt ⟨some a, Option.none⟩ x = Datetime.le a x)
  ∧ (∀ a b x : Datetime,
      Timerange.containsDt ⟨some a, some b⟩ x =
        (Datetime.le a x && Datetime.le x b))
  ∧ Timerange.mkTimeRange .noneIn .none .none =
      .ok ⟨Option.none, Option.none⟩
  ∧ Timerange.mkTimeRange .noneIn (.str str2020) .none =
      .ok ⟨some ⟨2020, 1, 1, 0, 0, 0⟩, Option.none⟩
  ∧ Timerange.containsDt ⟨some ⟨2020, 1, 1, 0, 0, 0⟩, Option.none⟩
      ⟨2021, 1, 1, 0, 0, 0⟩ = true
  ∧ Timerange.containsDt ⟨some ⟨2020, 1, 1, 0, 0, 0⟩, Option.none⟩
      ⟨2019, 12, 31, 0, 0, 0⟩ = false := by
  refine ⟨fun _ => rfl, fun _ _ => rfl, fun _ _ => rfl, fun _ _ _ => rfl,
    by decide, by decide, by decide, by decide⟩

/-- C10: the `TimeRange` class of `uataq/timerange.py` and its duplicate
in `uataq/filesystem/core.py` are behaviourally identical: `parse_iso`,
the constructor, both setters, containment and `total_seconds` agree on
every input. -/
theorem c10_duplicate_timerange_equiv :
    (∀ (s : String) (inclusive : Bool),
      Timerange.parse_iso s inclusive = FsCore.parse_iso s inclusive)
  ∧ (∀ (time_range : TimeRangeInput) (start stop : TimeObject),
      Timerange.mkTimeRange time_range start stop =
        FsCore.mkTimeRange time_range start stop)
  ∧ (∀ x : TimeObject, Timerange.startSetter x = FsCore.startSetter x)
  ∧ (∀ x : TimeObject, Timerange.stopSetter x = FsCore.stopSetter x)
  ∧ (∀ (tr : TimeRange) (item : Datetime),
      Timerange.containsDt tr item = FsCore.containsDt tr item)
  ∧ (∀ tr : TimeRange, Timerange.total_seconds tr = FsCore.total_seconds tr) :=
  ⟨fun _ _ => rfl, fun _ _ _ => rfl, fun _ => rfl, fun _ => rfl,
    fun _ _ => rfl, fun _ => rfl⟩

/-- C8: the worker count is the minimum of the request (the CPU count for
`max`), the CPU count and the file count — in particular never more
workers than files — and the sequential path is taken exactly when the
clamped count is 1. -/
theorem c8_process_clamping :
    (∀ cpu nfiles : Nat,
      FsCore.computeProcesses .maxProcs cpu nfiles =
        min (cpu : Int) (nfiles : Int))
  ∧ (∀ (k : Int) (cpu nfiles : Nat),
      FsCore.computeProcesses (.n k) cpu nfiles =
        min (min k (cpu : Int)) (nfiles : Int))
  ∧ (∀ (np : FsCore.NumProcesses) (cpu nfiles : Nat),
      FsCore.computeProcesses np cpu nfiles ≤ (nfiles : Int))
  ∧ (∀ (np : FsCore.NumProcesses) (cpu nfiles : Nat),
      FsCore.parseMode np cpu nfiles = .sequential ↔
        FsCore.computeProcesses np cpu nfiles = 1)
  ∧ (∀ (files : List FsCore.DataFile) (tr : TimeRange)
      (np : FsCore.NumProcesses) (driver : String) (cpu : Nat)
      (order : List Nat),
      FsCore.computeProcesses np cpu files.length = 1 →
      FsCore.parse_datafiles files tr np driver cpu order =
        FsCore.finishParse (files.map FsCore._parse_datafile) tr driver) := by
  refine ⟨?_, ?_, ?_, ?_, ?_⟩
  · intro cpu nfiles
    simp only [FsCore.computeProcesses]
    rw [Int.min_def]
    split_ifs <;> omega
  · intro k cpu nfiles
    simp only [FsCore.computeProcesses]
    rw [Int.min_def, Int.min_def]
    split_ifs <;> omega
  · intro np cpu nfiles
    cases np <;> simp only [FsCore.computeProcesses] <;> split_ifs <;> omega
  · intro np cpu nfiles
    unfold FsCore.parseMode
    split_ifs with h
    · simp [h]
    · simp [h]
  · intro files tr np driver cpu order h
    unfold FsCore.parse_datafiles
    rw [if_pos h]

/-- C8 witness: with one file, one requested process and four CPUs the
clamped count is 1 and parsing follows the sequential path. -/
theorem c8_process_clamping_witness :
    FsCore.parse_datafiles [janFile] ⟨Option.none, Option.none⟩ (.n 1)
      pandasDriver 4 [0] =
    FsCore.finishParse ([janFile].map FsCore._parse_datafile)
      ⟨Option.none, Option.none⟩ pandasDriver :=
  c8_process_clamping.2.2.2.2 [janFile] ⟨Option.none, Option.none⟩ (.n 1)
    pandasDriver 4 [0] (by decide)

/-- C5: when the selection left after time filtering, pattern filtering
and the boundary correction is empty, `filter_datafiles` raises the
no-files `ReaderError`; it never returns an empty list. -/
theorem c5_empty_selection_errors :
    ∀ (freq : FsCore.FileFreq) (files : List FsCore.DataFile)
      (tr : TimeRange) (pattern : Option String),
      (FsCore.selectionOf freq files tr pattern = [] →
        FsCore.filter_datafiles freq files tr pattern = .error .readerError)
    ∧ (∀ out, FsCore.filter_datafiles freq files tr pattern = .ok out →
        out ≠ []) := by
  intro freq files tr pattern
  constructor
  · intro h
    unfold FsCore.filter_datafiles
    rw [h]
    rfl
  · intro out hout
    unfold FsCore.filter_datafiles at hout
    by_cases h : (FsCore.selectionOf freq files tr pattern).isEmpty
    · rw [if_pos h] at hout
      cases hout
    · rw [if_neg h] at hout
      cases hout
      intro hnil
      rw [hnil] at h
      exact h rfl

/-- C5 witness: a file list with nothing in range (here: no files at all)
produces an empty selection and the `ReaderError`. -/
theorem c5_empty_selection_errors_witness :
    FsCore.filter_datafiles .month [] ⟨Option.none, Option.none⟩
      Option.none = .error .readerError :=
  (c5_empty_selection_errors .month [] ⟨Option.none, Option.none⟩
    Option.none).1 (by decide)

theorem lookupIdx_mem {β : Type} {i : Nat} :
    ∀ {l : List (Nat × β)} {v : β},
      FsCore.lookupIdx i l = some v → (i, v) ∈ l := by
  intro l
  induction l with
  | nil => intro v h; simp [FsCore.lookupIdx] at h
  | cons p rest ih =>
    intro v h
    obtain ⟨j, w⟩ := p
    simp only [FsCore.lookupIdx] at h
    split_ifs at h with hj
    · injection h with h
      subst hj
      subst h
      exact List.mem_cons_self _ _
    · exact List.mem_cons_of_mem _ (ih h)

theorem lookupIdx_filterMap {α β : Type} (g : α → β) (xs : List α) :
    ∀ (order : List Nat) {i : Nat} {x : α},
      xs.get? i = some x → i ∈ order →
      FsCore.lookupIdx i
        (order.filterMap (fun j => (xs.get? j).map (fun y => (j, g y)))) =
        some (g x) := by
  intro order
  induction order with
  | nil => intro i x _ hmem; cases hmem
  | cons j rest ih =>
    intro i x hx hmem
    by_cases hj : j = i
    · subst hj
      rw [List.filterMap_cons_some (by rw [hx]; rfl)]
      simp [FsCore.lookupIdx]
    · have hrest : i ∈ rest := by
        rcases List.mem_cons.mp hmem with h | h
        · exact absurd h.symm hj
        · exact h
      cases hxj : xs.get? j with
      | none =>
        rw [List.filterMap_cons_none (by rw [hxj]; rfl)]
        exact ih hx hrest
      | some y =>
        rw [List.filterMap_cons_some (by rw [hxj]; rfl)]
        simp only [FsCore.lookupIdx, if_neg hj]
        exact ih hx hrest

theorem range_filterMap_get {α β : Type} (g : α → β) :
    ∀ xs : List α,
      (List.range xs.length).filterMap (fun i => (xs.get? i).map g) =
        xs.map g := by
  intro xs
  induction xs with
  | nil => rfl
  | cons x rest ih =>
    rw [List.length_cons, List.range_succ_eq_map,
      List.filterMap_cons_some (by rfl), List.filterMap_map]
    rw [show ((fun i => (List.get? (x :: rest) i).map g) ∘ Nat.succ) =
      (fun i => (rest.get? i).map g) from rfl]
    rw [ih]
    rfl

theorem poolMap_eq_map {α β : Type} (g : α → β) (xs : List α)
    (order : List Nat) (h : ∀ i, i < xs.length → i ∈ order) :
    FsCore.poolMap order g xs = xs.map g := by
  unfold FsCore.poolMap
  rw [← range_filterMap_get g xs]
  apply List.filterMap_congr
  intro i hi
  have hi' : i < xs.length := List.mem_range.mp hi
  cases hx : xs.get? i with
  | none =>
    rw [List.get?_eq_getElem?] at hx
    have := List.getElem?_eq_none_iff.mp hx
    omega
  | some x =>
    rw [lookupIdx_filterMap g xs order hx (h i hi')]
    rfl

theorem poolMap_mem {α β : Type} {g : α → β} {xs : List α}
    {order : List Nat} {b : β} (h : b ∈ FsCore.poolMap order g xs) :
    ∃ a, a ∈ xs ∧ b = g a := by
  unfold FsCore.poolMap at h
  obtain ⟨i, _, hlook⟩ := List.mem_filterMap.mp h
  have hmem := lookupIdx_mem hlook
  obtain ⟨j, hj, hjeq⟩ := List.mem_filterMap.mp hmem
  cases hxj : xs.get? j with
  | none => rw [hxj] at hjeq; cases hjeq
  | some x =>
    rw [hxj] at hjeq
    simp [Prod.ext_iff] at hjeq
    exact ⟨x, List.get?_mem hxj, hjeq.2.symm⟩

theorem finishParse_allNone {datasets : List (Option FsCore.Table)}
    (tr : TimeRange) (driver : String)
    (h : ∀ o ∈ datasets, o = Option.none) :
    isOkResult (FsCore.finishParse datasets tr driver) = false := by
  have hconc : isOkResult (FsCore.concatDataFrames datasets) = false := by
    unfold FsCore.concatDataFrames
    by_cases he : datasets.isEmpty
    · rw [if_pos he]; rfl
    · rw [if_neg he]
      have hnil : datasets.filterMap id = [] :=
        List.filterMap_eq_nil_iff.mpr (fun a ha => h a ha)
      rw [hnil]
      rfl
  unfold FsCore.finishParse
  split_ifs
  · cases hc : FsCore.concatDataFrames datasets with
    | ok t => rw [hc] at hconc; simp [isOkResult] at hconc
    | error e => rfl
  · rfl
  · rfl

/-- C6: when every file's `parse()` raises a parser error, zero tables
reach concatenation and `parse_datafiles` fails rather than returning an
empty table (whatever the requested worker count, driver, CPU count or
worker completion order). -/
theorem c6_all_failures_fatal :
    ∀ (files : List FsCore.DataFile) (tr : TimeRange)
      (np : FsCore.NumProcesses) (driver : String) (cpu : Nat)
      (order : List Nat),
      (∀ f ∈ files, isOkResult f.parse = false) →
      isOkResult (FsCore.parse_datafiles files tr np driver cpu order) =
        false := by
  intro files tr np driver cpu order hall
  have hnone : ∀ f ∈ files, FsCore._parse_datafile f = Option.none := by
    intro f hf
    have hb := hall f hf
    cases hp : f.parseResult with
    | ok t =>
      exfalso
      rw [show f.parse = f.parseResult from rfl, hp] at hb
      simp [isOkResult] at hb
    | error e =>
      simp [FsCore._parse_datafile, FsCore.DataFile.parse, hp]
  unfold FsCore.parse_datafiles
  split_ifs
  · apply finishParse_allNone
    intro o ho
    obtain ⟨f, hf, rfl⟩ := List.mem_map.mp ho
    exact hnone f hf
  · rfl
  · apply finishParse_allNone
    intro o ho
    obtain ⟨a, ha, hb⟩ := poolMap_mem ho
    rw [hb]
    exact hnone a ha

/-- C6 witness: a single file whose parse fails makes the whole call
fail. -/
theorem c6_all_failures_fatal_witness :
    isOkResult (FsCore.parse_datafiles [badFile] ⟨Option.none, Option.none⟩
      (.n 1) pandasDriver 4 [0]) = false :=
  c6_all_failures_fatal [badFile] ⟨Option.none, Option.none⟩ (.n 1)
    pandasDriver 4 [0] (by decide)

theorem parse_datafiles_seq_eq {files : List FsCore.DataFile}
    {tr : TimeRange} {np : FsCore.NumProcesses} {driver : String}
    {cpu : Nat} {order : List Nat}
    (horder : ∀ i, i < files.length → i ∈ order)
    (hprocs : 1 ≤ FsCore.computeProcesses np cpu files.length) :
    FsCore.parse_datafiles files tr np driver cpu order =
      FsCore.finishParse (files.map FsCore._parse_datafile) tr driver := by
  unfold FsCore.parse_datafiles
  by_cases h1 : FsCore.computeProcesses np cpu files.length = 1
  · rw [if_pos h1]
  · rw [if_neg h1, if_neg (by omega),
      poolMap_eq_map FsCore._parse_datafile files order horder]

/-- C3: a `ParserError` from one file's `parse()` is caught per file: the
failed file contributes no rows and the call does not raise — the merged
table is exactly the concatenation of the successfully parsed files'
tables, sorted and clipped to the range. -/
theorem c3_parser_errors_tolerated :
    ∀ (files : List FsCore.DataFile) (tr : TimeRange)
      (np : FsCore.NumProcesses) (cpu : Nat) (order : List Nat),
      (∀ i, i < files.length → i ∈ order) →
      1 ≤ FsCore.computeProcesses np cpu files.length →
      (∃ f ∈ files, isOkResult f.parse = true) →
      FsCore.parse_datafiles files tr np pandasDriver cpu order =
        .ok (FsCore.clipSort (FsCore.successTables files).flatten tr) := by
  intro files tr np cpu order horder hprocs hok
  rw [parse_datafiles_seq_eq horder hprocs]
  unfold FsCore.finishParse
  rw [if_pos (show pandasDriver = "pandas" from rfl)]
  have hconc : FsCore.concatDataFrames (files.map FsCore._parse_datafile) =
      .ok (FsCore.successTables files).flatten := by
    unfold FsCore.concatDataFrames
    obtain ⟨f, hf, hfok⟩ := hok
    have hne : files ≠ [] := by rintro rfl; cases hf
    rw [if_neg (by simp [List.isEmpty_iff]; exact hne)]
    have hobjs : (files.map FsCore._parse_datafile).filterMap id =
        FsCore.successTables files := by
      rw [List.filterMap_map]
      rfl
    rw [hobjs]
    have hsome : ∃ t, FsCore._parse_datafile f = some t := by
      unfold FsCore._parse_datafile
      cases hp : f.parse with
      | ok t => exact ⟨t, rfl⟩
      | error e => rw [hp] at hfok; simp [isOkResult] at hfok
    obtain ⟨t, ht⟩ := hsome
    have htmem : t ∈ FsCore.successTables files :=
      List.mem_filterMap.mpr ⟨f, hf, ht⟩
    rw [if_neg (by simp [List.isEmpty_iff]; exact List.ne_nil_of_mem htmem)]
  rw [hconc]
  rfl

/-- C3 witness: of three files the middle one fails; the result is the
merge of the two successful files' rows. -/
theorem c3_parser_errors_tolerated_witness :
    FsCore.parse_datafiles [marFile, badFile, janFile]
      ⟨Option.none, Option.none⟩ (.n 1) pandasDriver 4 [0, 1, 2] =
    .ok (FsCore.clipSort
      (FsCore.successTables [marFile, badFile, janFile]).flatten
      ⟨Option.none, Option.none⟩) :=
  c3_parser_errors_tolerated [marFile, badFile, janFile]
    ⟨Option.none, Option.none⟩ (.n 1) 4 [0, 1, 2] (by decide) (by decide)
    (by decide)

theorem clipSort_pairwise (t : FsCore.Table) (tr : TimeRange) :
    List.Pairwise FsCore.rowRel (FsCore.clipSort t tr) := by
  haveI : IsTotal (Datetime × Int) FsCore.rowRel :=
    ⟨fun a b => Datetime.le_total a.1 b.1⟩
  haveI : IsTrans (Datetime × Int) FsCore.rowRel :=
    ⟨fun _ _ _ h₁ h₂ => Datetime.le_trans h₁ h₂⟩
  unfold FsCore.clipSort
  exact List.Pairwise.sublist (List.filter_sublist _)
    (List.sorted_insertionSort _ _)

/-- C4: sequential parsing and pool parsing produce identical merged
tables, whatever the worker completion orders, and any successful result
is sorted by timestamp. -/
theorem c4_parallel_equals_sequential :
    ∀ (files : List FsCore.DataFile) (tr : TimeRange)
      (np₁ np₂ : FsCore.NumProcesses) (driver : String) (cpu : Nat)
      (o₁ o₂ : List Nat),
      (∀ i, i < files.length → i ∈ o₁) →
      (∀ i, i < files.length → i ∈ o₂) →
      1 ≤ FsCore.computeProcesses np₁ cpu files.length →
      1 ≤ FsCore.computeProcesses np₂ cpu files.length →
      (FsCore.parse_datafiles files tr np₁ driver cpu o₁ =
        FsCore.parse_datafiles files tr np₂ driver cpu o₂)
      ∧ (∀ out, FsCore.parse_datafiles files tr np₁ driver cpu o₁ =
          .ok out → List.Pairwise FsCore.rowRel out) := by
  intro files tr np₁ np₂ driver cpu o₁ o₂ h₁ h₂ hp₁ hp₂
  constructor
  · rw [parse_datafiles_seq_eq h₁ hp₁, parse_datafiles_seq_eq h₂ hp₂]
  · intro out hout
    rw [parse_datafiles_seq_eq h₁ hp₁] at hout
    unfold FsCore.finishParse at hout
    by_cases hd1 : driver = "pandas"
    · rw [if_pos hd1] at hout
      cases hc : FsCore.concatDataFrames (files.map FsCore._parse_datafile) with
      | error e => rw [hc] at hout; cases hout
      | ok t =>
        rw [hc] at hout
        injection hout with hout
        rw [← hout]
        exact clipSort_pairwise t tr
    · rw [if_neg hd1] at hout
      by_cases hd2 : driver = "xarray"
      · rw [if_pos hd2] at hout; cases hout
      · rw [if_neg hd2] at hout; cases hout

/-- C4 witness: three files (one failing), one process versus three
processes with a scrambled completion order. -/
theorem c4_parallel_equals_sequential_witness :
    FsCore.parse_datafiles [marFile, janFile, badFile]
      ⟨Option.none, Option.none⟩ (.n 1) pandasDriver 4 [0, 1, 2] =
    FsCore.parse_datafiles [marFile, janFile, badFile]
      ⟨Option.none, Option.none⟩ (.n 3) pandasDriver 4 [2, 0, 1] :=
  (c4_parallel_equals_sequential [marFile, janFile, badFile]
    ⟨Option.none, Option.none⟩ (.n 1) (.n 3) pandasDriver 4 [0, 1, 2]
    [2, 0, 1] (by decide) (by decide) (by decide) (by decide)).1

theorem lexLe_extend : ∀ (xs ys u v w z : List Nat), xs.length = ys.length →
    lexLe (xs ++ u) (ys ++ v) = true → lexLe w z = true →
    lexLe (xs ++ w) (ys ++ z) = true := by
  intro xs
  induction xs with
  | nil =>
    intro ys u v w z hlen h hw
    cases ys with
    | nil => simpa using hw
    | cons b bs => simp at hlen
  | cons a as ih =>
    intro ys u v w z hlen h hw
    cases ys with
    | nil => simp at hlen
    | cons b bs =>
      have hlen' : as.length = bs.length := by
        simp only [List.length_cons] at hlen
        omega
      simp only [List.cons_append, lexLe] at h ⊢
      split_ifs at h ⊢ <;> first
        | rfl
        | exact ih bs u v w z hlen' h hw

theorem truncTo_mono (f : FsCore.FileFreq) {a b : Datetime}
    (h : Datetime.le a b = true) :
    Datetime.le (FsCore.truncTo f a) (FsCore.truncTo f b) = true := by
  cases f with
  | year =>
    exact lexLe_extend [a.year] [b.year]
      [a.month, a.day, a.hour, a.minute, a.second]
      [b.month, b.day, b.hour, b.minute, b.second]
      [1, 1, 0, 0, 0] [1, 1, 0, 0, 0] rfl h (lexLe_refl _)
  | month =>
    exact lexLe_extend [a.year, a.month] [b.year, b.month]
      [a.day, a.hour, a.minute, a.second] [b.day, b.hour, b.minute, b.second]
      [1, 0, 0, 0] [1, 0, 0, 0] rfl h (lexLe_refl _)
  | day =>
    exact lexLe_extend [a.year, a.month, a.day] [b.year, b.month, b.day]
      [a.hour, a.minute, a.second] [b.hour, b.minute, b.second]
      [0, 0, 0] [0, 0, 0] rfl h (lexLe_refl _)
  | hour =>
    exact lexLe_extend [a.year, a.month, a.day, a.hour]
      [b.year, b.month, b.day, b.hour]
      [a.minute, a.second] [b.minute, b.second]
      [0, 0] [0, 0] rfl h (lexLe_refl _)

theorem lexLe_append_left : ∀ (xs w v : List Nat), lexLe w v = true →
    lexLe (xs ++ w) (xs ++ v) = true := by
  intro xs
  induction xs with
  | nil => intro w v h; exact h
  | cons a as ih =>
    intro w v h
    simp only [List.cons_append, lexLe]
    rw [if_neg (Nat.lt_irrefl a), if_neg (Nat.lt_irrefl a)]
    exact ih w v h

theorem truncTo_le_self (f : FsCore.FileFreq) {b : Datetime}
    (hb : b.isValid = true) :
    Datetime.le (FsCore.truncTo f b) b = true := by
  simp only [Datetime.isValid, Bool.and_eq_true, decide_eq_true_eq] at hb
  cases f with
  | year =>
    refine lexLe_append_left [b.year] [1, 1, 0, 0, 0]
      [b.month, b.day, b.hour, b.minute, b.second] ?_
    simp only [lexLe]
    split_ifs <;> first | rfl | omega
  | month =>
    refine lexLe_append_left [b.year, b.month] [1, 0, 0, 0]
      [b.day, b.hour, b.minute, b.second] ?_
    simp only [lexLe]
    split_ifs <;> first | rfl | omega
  | day =>
    refine lexLe_append_left [b.year, b.month, b.day] [0, 0, 0]
      [b.hour, b.minute, b.second] ?_
    simp only [lexLe]
    split_ifs <;> first | rfl | omega
  | hour =>
    refine lexLe_append_left [b.year, b.month, b.day, b.hour] [0, 0]
      [b.minute, b.second] ?_
    simp only [lexLe]
    split_ifs <;> first | rfl | omega

theorem le_trunc_eq {f : FsCore.FileFreq} {p b : Datetime}
    (hp : FsCore.truncTo f p = p) (hb : b.isValid = true) :
    Datetime.le p (FsCore.truncTo f b) = Datetime.le p b := by
  by_cases h : Datetime.le p b = true
  · rw [h]
    have hm := truncTo_mono f h
    rw [hp] at hm
    exact hm
  · have h' : Datetime.le p b = false := by
      cases hx : Datetime.le p b with
      | false => rfl
      | true => exact absurd hx h
    rw [h']
    cases hx : Datetime.le p (FsCore.truncTo f b) with
    | false => rfl
    | true =>
      exact absurd (Datetime.le_trans hx (truncTo_le_self f hb)) h

theorem timeSelection_eq_spec (freq : FsCore.FileFreq)
    (files : List FsCore.DataFile) (a b : Datetime) (hb : b.isValid = true)
    (halign : ∀ x ∈ files, FsCore.truncTo freq x.period = x.period) :
    FsCore.timeSelection freq files ⟨some a, some b⟩ =
      specSelection freq files a b := by
  unfold FsCore.timeSelection specSelection
  apply List.filter_congr
  intro x hx
  have hxf : x ∈ files := (List.mem_insertionSort _).mp hx
  have hiff := le_trunc_eq (halign x hxf) hb
  show (Datetime.le (FsCore.truncTo freq a) x.period &&
      Datetime.le x.period (FsCore.truncTo freq b)) =
    (Datetime.le (FsCore.truncTo freq a) x.period &&
      Datetime.le x.period b)
  rw [hiff]

/-- C2 (amended): with both bounds set, `filter_datafiles` selects exactly
the files whose period start lies between the start of the file-frequency
period containing `time_range.start` and `time_range.stop` (both ends
inclusive), sorted by period start ascending, and then drops the last
selected file when its period starts exactly at `time_range.stop`; an
empty final selection raises the `ReaderError`. -/
theorem c2_filter_selection :
    ∀ (freq : FsCore.FileFreq) (files : List FsCore.DataFile)
      (a b : Datetime),
      b.isValid = true →
      (∀ x ∈ files, FsCore.truncTo freq x.period = x.period) →
      (FsCore.filter_datafiles freq files ⟨some a, some b⟩ Option.none =
        if (FsCore.boundaryCorrected (specSelection freq files a b)
            ⟨some a, some b⟩).isEmpty
        then .error .readerError
        else .ok (FsCore.boundaryCorrected (specSelection freq files a b)
            ⟨some a, some b⟩))
      ∧ (∀ x, x ∈ specSelection freq files a b ↔
          x ∈ files ∧ Datetime.le (FsCore.truncTo freq a) x.period = true ∧
            Datetime.le x.period b = true)
      ∧ List.Pairwise FsCore.periodRel (specSelection freq files a b) := by
  intro freq files a b hb halign
  have hsel : FsCore.selectionOf freq files ⟨some a, some b⟩ Option.none =
      FsCore.boundaryCorrected (specSelection freq files a b)
        ⟨some a, some b⟩ := by
    unfold FsCore.selectionOf FsCore.patternSelection
    rw [timeSelection_eq_spec freq files a b hb halign]
  refine ⟨?_, ?_, ?_⟩
  · unfold FsCore.filter_datafiles
    rw [hsel]
  · intro x
    unfold specSelection
    rw [List.mem_filter, List.mem_insertionSort]
    constructor
    · rintro ⟨hxf, hp⟩
      rw [Bool.and_eq_true] at hp
      exact ⟨hxf, hp.1, hp.2⟩
    · rintro ⟨hxf, h1, h2⟩
      exact ⟨hxf, by rw [Bool.and_eq_true]; exact ⟨h1, h2⟩⟩
  · haveI : IsTotal FsCore.DataFile FsCore.periodRel :=
      ⟨fun u v => Datetime.le_total u.period v.period⟩
    haveI : IsTrans FsCore.DataFile FsCore.periodRel :=
      ⟨fun _ _ _ h₁ h₂ => Datetime.le_trans h₁ h₂⟩
    unfold specSelection
    exact List.Pairwise.sublist (List.filter_sublist _)
      (List.sorted_insertionSort _ _)

/-- C2 witness: monthly files for January, February and March 2020 with
bounds 2020-01-01 to 2020-02-01 select January and February, and the
February file — whose period starts exactly at the stop — is dropped. -/
theorem c2_filter_selection_witness :
    FsCore.filter_datafiles .month [febFile, janFile, marFile]
      ⟨some ⟨2020, 1, 1, 0, 0, 0⟩, some ⟨2020, 2, 1, 0, 0, 0⟩⟩
      Option.none = .ok [janFile] := by
  rw [(c2_filter_selection .month [febFile, janFile, marFile]
    ⟨2020, 1, 1, 0, 0, 0⟩ ⟨2020, 2, 1, 0, 0, 0⟩ (by decide) (by decide)).1]
  decide

/-- C2 counterexample: with `time_range.start` in the middle of January
(2020-01-15), the January file is still returned even though its period
start 2020-01-01 does not fall within `[time_range.start, time_range.stop]`
— the lower bound is applied to the period containing the start, not to
the start instant itself. -/
theorem c2_filter_selection_counterexample :
    FsCore.filter_datafiles .month [janFile]
      ⟨some ⟨2020, 1, 15, 0, 0, 0⟩, some ⟨2020, 3, 1, 0, 0, 0⟩⟩
      Option.none = .ok [janFile]
    ∧ Datetime.le ⟨2020, 1, 15, 0, 0, 0⟩ janFile.period = false :=
  ⟨by decide, by decide⟩

theorem digit_ne_dash {c : Char} (h : charIsDigit c = true) : ¬(c = '-') := by
  intro he
  subst he
  exact absurd h (by decide)

theorem digit_ne_T {c : Char} (h : charIsDigit c = true) : ¬(c = 'T') := by
  intro he
  subst he
  exact absurd h (by decide)

theorem digit_not_space {c : Char} (h : charIsDigit c = true) :
    isPySpace c = false := by
  cases hx : isPySpace c with
  | false => rfl
  | true =>
    exfalso
    simp only [isPySpace, Bool.or_eq_true, decide_eq_true_eq] at hx
    rcases hx with ((((rfl | rfl) | rfl) | rfl) | rfl) | rfl <;>
      exact absurd h (by decide)

theorem takeDigits4_none_iff (cs : List Char) :
    takeDigits 4 cs = Option.none ↔ fourDigitStartList cs = false := by
  rcases cs with _ | ⟨a, _ | ⟨b, _ | ⟨c, _ | ⟨d, rest⟩⟩⟩⟩
  · simp [takeDigits, fourDigitStartList]
  · simp [takeDigits, fourDigitStartList]
  · simp [takeDigits, fourDigitStartList]
  · simp [takeDigits, fourDigitStartList]
  · cases ha : charIsDigit a <;> cases hb : charIsDigit b <;>
      cases hc : charIsDigit c <;> cases hd : charIsDigit d <;>
      simp [takeDigits, fourDigitStartList, ha, hb, hc, hd]

theorem matchIso_none_iff (cs : List Char) :
    matchIso cs = Option.none ↔ fourDigitStartList cs = false := by
  unfold matchIso
  cases ht : takeDigits 4 cs with
  | none =>
    constructor
    · intro _
      exact (takeDigits4_none_iff cs).mp ht
    · intro _
      rfl
  | some p =>
    obtain ⟨ys, r0⟩ := p
    constructor
    · intro h
      cases h
    · intro h
      exact absurd ht (by rw [(takeDigits4_none_iff cs).mpr h]; intro hx; cases hx)

/-- C9 (amended): `parse_iso` raises the invalid-format `ValueError`
exactly when the string does not begin with four decimal digits, and
succeeds on strings that are not well-formed partial ISO8601: the pattern
is only anchored at the start (`re.match`), so any trailing characters
after the greedily matched prefix are ignored (strings whose extracted
components do not form a valid datetime fail with a different
`ValueError`).  Python's `\d` without `re.ASCII` also matches non-ASCII
Unicode decimal digits, which this embedding does not model, so the
characterization is certified for ASCII strings, where `\d` coincides
with `0-9`. -/
theorem c9_invalid_format_characterization :
    ∀ (s : String) (inclusive : Bool), isAsciiString s = true →
      ((Timerange.parse_iso s inclusive = .error .invalidTimeString) ↔
        fourDigitStart s = false) := by
  intro s inc _
  unfold Timerange.parse_iso
  cases hm : matchIso s.data with
  | none =>
    constructor
    · intro _
      exact (matchIso_none_iff _).mp hm
    · intro _
      rfl
  | some c =>
    have htrue : fourDigitStartList s.data = true := by
      cases hx : fourDigitStartList s.data with
      | true => rfl
      | false => exact absurd hm (by rw [(matchIso_none_iff _).mpr hx]; intro h; cases h)
    rw [show fourDigitStart s = fourDigitStartList s.data from rfl, htrue]
    constructor
    · obtain ⟨ys, mo, dy, hr⟩ := c
      intro h
      apply absurd h
      cases mo <;> cases dy <;> cases hr <;>
        simp only [Option.isNone_none, Option.isNone_some, Option.isSome_none,
          Option.isSome_some, Bool.true_and, Bool.false_and, Bool.and_true,
          Bool.and_false, if_true, if_false, ite_true, ite_false] <;>
        (repeat' split) <;> simp
    · intro h
      cases h

/-- C9 counterexample: the string 2020banana does not match any of the
accepted partial ISO8601 patterns, yet `parse_iso` succeeds on it
(returning 2020-01-01T00:00:00) instead of raising a parse error. -/
theorem c9_invalid_format_counterexample :
    specAcceptedPattern strBanana = false ∧
      Timerange.parse_iso strBanana false = .ok ⟨2020, 1, 1, 0, 0, 0⟩ :=
  ⟨by decide, by decide⟩

/-- C9 witness: two ASCII strings, one without a four-digit prefix (the
parse fails with the format error) and one with a four-digit prefix but
trailing garbage (the parse does not fail with the format error). -/
theorem c9_invalid_format_characterization_witness :
    ((Timerange.parse_iso strAbcd false = .error .invalidTimeString) ↔
      fourDigitStart strAbcd = false)
    ∧ ((Timerange.parse_iso strBanana false = .error .invalidTimeString) ↔
      fourDigitStart strBanana = false) :=
  ⟨c9_invalid_format_characterization strAbcd false (by decide),
   c9_invalid_format_characterization strBanana false (by decide)⟩

theorem mkDatetime_some {y mo d h : Nat} (h1 : 1 ≤ y) (h2 : y ≤ 9999)
    (h3 : 1 ≤ mo) (h4 : mo ≤ 12) (h5 : 1 ≤ d) (h6 : d ≤ daysInMonth y mo)
    (h7 : h ≤ 23) : mkDatetime y mo d h = some ⟨y, mo, d, h, 0, 0⟩ := by
  unfold mkDatetime
  rw [if_pos]
  simp only [Datetime.isValid, Bool.and_eq_true, decide_eq_true_eq]
  omega

theorem matchIso_render : ∀ s : IsoString, s.wf = true →
    matchIso s.render = some s.components := by
  intro s hwf
  cases s with
  | y ys =>
    simp only [IsoString.wf, Bool.and_eq_true, beq_iff_eq] at hwf
    obtain ⟨h4, hd⟩ := hwf
    rcases ys with _ | ⟨y1, _ | ⟨y2, _ | ⟨y3, _ | ⟨y4, _ | ⟨y5, tl⟩⟩⟩⟩⟩
    · simp at h4
    · simp at h4
    · simp at h4
    · simp at h4
    · simp only [allDigits, List.all_cons, List.all_nil, Bool.and_eq_true,
        Bool.and_true] at hd
      obtain ⟨hy1, hy2, hy3, hy4⟩ := hd
      simp [matchIso, IsoString.render, IsoString.components, takeDigits,
        tryDigits, skipOpt, hy1, hy2, hy3, hy4]
    · simp at h4
  | ym ys ms sep1 =>
    simp only [IsoString.wf, Bool.and_eq_true, beq_iff_eq] at hwf
    obtain ⟨⟨⟨h4, hdy⟩, h2⟩, hdm⟩ := hwf
    rcases ys with _ | ⟨y1, _ | ⟨y2, _ | ⟨y3, _ | ⟨y4, _ | ⟨y5, tl⟩⟩⟩⟩⟩
    · simp at h4
    · simp at h4
    · simp at h4
    · simp at h4
    · rcases ms with _ | ⟨m1, _ | ⟨m2, _ | ⟨m3, tlm⟩⟩⟩
      · simp at h2
      · simp at h2
      · simp only [allDigits, List.all_cons, List.all_nil, Bool.and_eq_true,
          Bool.and_true] at hdy hdm
        obtain ⟨hy1, hy2, hy3, hy4⟩ := hdy
        obtain ⟨hm1, hm2⟩ := hdm
        cases sep1 <;>
          simp [matchIso, IsoString.render, IsoString.components, dashIf,
            takeDigits, tryDigits, skipOpt, hy1, hy2, hy3, hy4, hm1, hm2,
            digit_ne_dash hm1]
      · simp at h2
    · simp at h4
  | ymd ys ms ds sep1 sep2 =>
    simp only [IsoString.wf, Bool.and_eq_true, beq_iff_eq] at hwf
    obtain ⟨⟨⟨⟨⟨h4, hdy⟩, h2⟩, hdm⟩, h2d⟩, hdd⟩ := hwf
    rcases ys with _ | ⟨y1, _ | ⟨y2, _ | ⟨y3, _ | ⟨y4, _ | ⟨y5, tl⟩⟩⟩⟩⟩
    · simp at h4
    · simp at h4
    · simp at h4
    · simp at h4
    · rcases ms with _ | ⟨m1, _ | ⟨m2, _ | ⟨m3, tlm⟩⟩⟩
      · simp at h2
      · simp at h2
      · rcases ds with _ | ⟨d1, _ | ⟨d2, _ | ⟨d3, tld⟩⟩⟩
        · simp at h2d
        · simp at h2d
        · simp only [allDigits, List.all_cons, List.all_nil, Bool.and_eq_true,
            Bool.and_true] at hdy hdm hdd
          obtain ⟨hy1, hy2, hy3, hy4⟩ := hdy
          obtain ⟨hm1, hm2⟩ := hdm
          obtain ⟨hd1, hd2⟩ := hdd
          cases sep1 <;> cases sep2 <;>
            simp [matchIso, IsoString.render, IsoString.components, dashIf,
              takeDigits, tryDigits, skipOpt, hy1, hy2, hy3, hy4, hm1, hm2,
              hd1, hd2, digit_ne_dash hm1, digit_ne_dash hd1,
              digit_ne_T hd1, digit_not_space hd1]
        · simp at h2d
      · simp at h2
    · simp at h4
  | ymdh ys ms ds hs sep1 sep2 tsep =>
    simp only [IsoString.wf, Bool.and_eq_true, beq_iff_eq] at hwf
    obtain ⟨⟨⟨⟨⟨⟨⟨⟨h4, hdy⟩, h2⟩, hdm⟩, h2d⟩, hdd⟩, hlh⟩, hdh⟩, hts⟩ := hwf
    rcases ys with _ | ⟨y1, _ | ⟨y2, _ | ⟨y3, _ | ⟨y4, _ | ⟨y5, tl⟩⟩⟩⟩⟩
    · simp at h4
    · simp at h4
    · simp at h4
    · simp at h4
    · rcases ms with _ | ⟨m1, _ | ⟨m2, _ | ⟨m3, tlm⟩⟩⟩
      · simp at h2
      · simp at h2
      · rcases ds with _ | ⟨d1, _ | ⟨d2, _ | ⟨d3, tld⟩⟩⟩
        · simp at h2d
        · simp at h2d
        · simp only [allDigits, List.all_cons, List.all_nil, Bool.and_eq_true,
            Bool.and_true] at hdy hdm hdd
          obtain ⟨hy1, hy2, hy3, hy4⟩ := hdy
          obtain ⟨hm1, hm2⟩ := hdm
          obtain ⟨hd1, hd2⟩ := hdd
          rcases hs with _ | ⟨g1, _ | ⟨g2, _ | ⟨g3, tlh⟩⟩⟩
          · simp at hlh
          · simp only [allDigits, List.all_cons, List.all_nil,
              Bool.and_eq_true, Bool.and_true] at hdh
            cases tsep with
            | none =>
              cases sep1 <;> cases sep2 <;>
                simp [matchIso, IsoString.render, IsoString.components,
                  dashIf, takeDigits, tryDigits, skipOpt, hy1, hy2, hy3, hy4,
                  hm1, hm2, hd1, hd2, hdh, digit_ne_dash hm1,
                  digit_ne_dash hd1, digit_ne_T hdh, digit_not_space hdh]
            | some tc =>
              simp only [Bool.or_eq_true, beq_iff_eq] at hts
              have htc : (decide (tc = 'T') || isPySpace tc) = true := by
                rcases hts with rfl | hsp
                · simp
                · simp [hsp]
              cases sep1 <;> cases sep2 <;>
                simp [matchIso, IsoString.render, IsoString.components,
                  dashIf, takeDigits, tryDigits, skipOpt, hy1, hy2, hy3, hy4,
                  hm1, hm2, hd1, hd2, hdh, htc, digit_ne_dash hm1,
                  digit_ne_dash hd1]
          · simp only [allDigits, List.all_cons, List.all_nil,
              Bool.and_eq_true, Bool.and_true] at hdh
            obtain ⟨hg1, hg2⟩ := hdh
            cases tsep with
            | none =>
              cases sep1 <;> cases sep2 <;>
                simp [matchIso, IsoString.render, IsoString.components,
                  dashIf, takeDigits, tryDigits, skipOpt, hy1, hy2, hy3, hy4,
                  hm1, hm2, hd1, hd2, hg1, hg2, digit_ne_dash hm1,
                  digit_ne_dash hd1, digit_ne_T hg1, digit_not_space hg1]
            | some tc =>
              simp only [Bool.or_eq_true, beq_iff_eq] at hts
              have htc : (decide (tc = 'T') || isPySpace tc) = true := by
                rcases hts with rfl | hsp
                · simp
                · simp [hsp]
              cases sep1 <;> cases sep2 <;>
                simp [matchIso, IsoString.render, IsoString.components,
                  dashIf, takeDigits, tryDigits, skipOpt, hy1, hy2, hy3, hy4,
                  hm1, hm2, hd1, hd2, hg1, hg2, htc, digit_ne_dash hm1,
                  digit_ne_dash hd1]
          · simp at hlh
        · simp only [List.length_cons] at h2d
          omega
      · simp at h2
    · simp at h4

theorem mkDatetime_of_valid {y mo d h : Nat}
    (hv : (Datetime.mk y mo d h 0 0).isValid = true) :
    mkDatetime y mo d h = some ⟨y, mo, d, h, 0, 0⟩ := by
  unfold mkDatetime
  rw [if_pos hv]

/-- C1 (amended): for strings at the four supported granularities whose
components denote a representable datetime, `parse_iso` with
`inclusive=True` returns the start of the next unit at the finest
granularity present — `YYYY` gives `(year+1, 1, 1)` provided
`year < 9999`; `YYYY-MM` gives `(year, month+1, 1)` for `month < 12` and
`(year+1, 1, 1)` for `month = 12` (again `year < 9999`); `YYYY-MM-DD`
gives the start instant plus one day and `YYYY-MM-DDTHH` the start
instant plus one hour, provided that successor stays within year 9999.
With `inclusive=False` it returns the exact instant denoted, missing
month/day/hour defaulting to 1/1/0.  (The code raises `ValueError` at the
boundary cases the provisos exclude — see the counterexample.) -/
theorem c1_parse_iso_granularities :
    (∀ ys : List Char, (IsoString.y ys).wf = true →
      1 ≤ natOfDigits ys → natOfDigits ys < 9999 →
      Timerange.parse_iso (String.mk (IsoString.y ys).render) true =
        .ok ⟨natOfDigits ys + 1, 1, 1, 0, 0, 0⟩)
  ∧ (∀ (ys ms : List Char) (sep1 : Bool),
      (IsoString.ym ys ms sep1).wf = true →
      1 ≤ natOfDigits ys → natOfDigits ys ≤ 9999 →
      1 ≤ natOfDigits ms → natOfDigits ms < 12 →
      Timerange.parse_iso (String.mk (IsoString.ym ys ms sep1).render) true =
        .ok ⟨natOfDigits ys, natOfDigits ms + 1, 1, 0, 0, 0⟩)
  ∧ (∀ (ys ms : List Char) (sep1 : Bool),
      (IsoString.ym ys ms sep1).wf = true →
      1 ≤ natOfDigits ys → natOfDigits ys < 9999 → natOfDigits ms = 12 →
      Timerange.parse_iso (String.mk (IsoString.ym ys ms sep1).render) true =
        .ok ⟨natOfDigits ys + 1, 1, 1, 0, 0, 0⟩)
  ∧ (∀ (ys ms ds : List Char) (sep1 sep2 : Bool) (r : Datetime),
      (IsoString.ymd ys ms ds sep1 sep2).wf = true →
      (componentsStart (IsoString.ymd ys ms ds sep1 sep2).components).isValid
        = true →
      Datetime.addOneDay
        (componentsStart (IsoString.ymd ys ms ds sep1 sep2).components) =
        some r →
      Timerange.parse_iso (String.mk (IsoString.ymd ys ms ds sep1 sep2).render)
        true = .ok r)
  ∧ (∀ (ys ms ds hs : List Char) (sep1 sep2 : Bool) (tsep : Option Char)
      (r : Datetime),
      (IsoString.ymdh ys ms ds hs sep1 sep2 tsep).wf = true →
      (componentsStart
        (IsoString.ymdh ys ms ds hs sep1 sep2 tsep).components).isValid =
        true →
      Datetime.addOneHour
        (componentsStart (IsoString.ymdh ys ms ds hs sep1 sep2 tsep).components)
        = some r →
      Timerange.parse_iso
        (String.mk (IsoString.ymdh ys ms ds hs sep1 sep2 tsep).render) true =
        .ok r)
  ∧ (∀ f : IsoString, f.wf = true →
      (componentsStart f.components).isValid = true →
      Timerange.parse_iso (String.mk f.render) false =
        .ok (componentsStart f.components)) := by
  refine ⟨?_, ?_, ?_, ?_, ?_, ?_⟩
  · intro ys hwf hy1 hy2
    have hm' : matchIso (String.mk (IsoString.y ys).render).data =
        some (IsoString.y ys).components := matchIso_render _ hwf
    unfold Timerange.parse_iso
    rw [hm']
    simp only [IsoString.components, Option.isNone_none, if_true, ite_true]
    rw [mkDatetime_some hy1 (by omega) (by omega) (by omega) (by omega)
      (one_le_daysInMonth _ _) (by omega)]
    rw [mkDatetime_some (by omega) (by omega) (by omega) (by omega) (by omega)
      (one_le_daysInMonth _ _) (by omega)]
  · intro ys ms sep1 hwf hy1 hy2 hm1 hm2
    have hm' : matchIso (String.mk (IsoString.ym ys ms sep1).render).data =
        some (IsoString.ym ys ms sep1).components := matchIso_render _ hwf
    unfold Timerange.parse_iso
    rw [hm']
    simp only [IsoString.components, Option.isNone_none, Option.isNone_some,
      Option.isSome_some, Bool.and_true, Bool.true_and, if_true, if_false,
      ite_true, ite_false]
    rw [mkDatetime_some hy1 hy2 hm1 (by omega) (by omega)
      (one_le_daysInMonth _ _) (by omega)]
    simp only [if_pos hm2, show (natOfDigits ms == 12) = false by
      simp; omega, if_false, Bool.false_eq_true, ite_false]
    rw [mkDatetime_some hy1 hy2 (by omega) (by omega) (by omega)
      (one_le_daysInMonth _ _) (by omega)]
  · intro ys ms sep1 hwf hy1 hy2 hm12
    have hm' : matchIso (String.mk (IsoString.ym ys ms sep1).render).data =
        some (IsoString.ym ys ms sep1).components := matchIso_render _ hwf
    unfold Timerange.parse_iso
    rw [hm']
    simp only [IsoString.components, Option.isNone_none, Option.isNone_some,
      Option.isSome_some, Bool.and_true, Bool.true_and, if_true, if_false,
      ite_true, ite_false]
    rw [mkDatetime_some hy1 (by omega) (by omega) (by omega) (by omega)
      (one_le_daysInMonth _ _) (by omega)]
    simp only [hm12, show ¬(12 < 12) by omega, if_false, ite_false,
      show ((12 : Nat) == 12) = true by rfl, if_true, ite_true]
    rw [mkDatetime_some (by omega) (by omega) (by omega) (by omega) (by omega)
      (one_le_daysInMonth _ _) (by omega)]
    simp
  · intro ys ms ds sep1 sep2 r hwf hv hadd
    have hm' : matchIso
        (String.mk (IsoString.ymd ys ms ds sep1 sep2).render).data =
        some (IsoString.ymd ys ms ds sep1 sep2).components :=
      matchIso_render _ hwf
    unfold Timerange.parse_iso
    rw [hm']
    simp only [IsoString.components, componentsStart] at hv hadd ⊢
    simp only [Option.isNone_none, Option.isNone_some, Option.isSome_some,
      Bool.and_true, Bool.true_and, if_true, if_false, ite_true, ite_false]
    rw [mkDatetime_of_valid hv]
    simp [hadd]
  · intro ys ms ds hs sep1 sep2 tsep r hwf hv hadd
    have hm' : matchIso
        (String.mk (IsoString.ymdh ys ms ds hs sep1 sep2 tsep).render).data =
        some (IsoString.ymdh ys ms ds hs sep1 sep2 tsep).components :=
      matchIso_render _ hwf
    unfold Timerange.parse_iso
    rw [hm']
    simp only [IsoString.components, componentsStart] at hv hadd ⊢
    simp only [Option.isNone_none, Option.isNone_some, Option.isSome_some,
      Bool.and_true, Bool.true_and, Bool.and_false, Bool.false_and, if_true,
      if_false, ite_true, ite_false]
    rw [mkDatetime_of_valid hv]
    simp [hadd]
  · intro f hwf hv
    have hm' : matchIso (String.mk f.render).data = some f.components :=
      matchIso_render _ hwf
    unfold Timerange.parse_iso
    rw [hm']
    cases f <;>
      simp only [IsoString.components, componentsStart] at hv ⊢ <;>
      rw [mkDatetime_of_valid hv] <;>
      rfl

/-- C1 counterexample: for the year-granularity string 9999 the claimed
inclusive result would be `datetime(10000, 1, 1)`, but `dt.datetime`
cannot represent year 10000, so `parse_iso` raises a `ValueError` instead
of returning the start of the next year. -/
theorem c1_parse_iso_counterexample :
    Timerange.parse_iso str9999 true = .error .dateOutOfRange := by decide

/-- C1 witness: concrete strings at all four granularities. -/
theorem c1_parse_iso_granularities_witness :
    Timerange.parse_iso (String.mk (IsoString.y ['2', '0', '2', '0']).render)
      true = .ok ⟨2021, 1, 1, 0, 0, 0⟩
  ∧ Timerange.parse_iso
      (String.mk (IsoString.ym ['2', '0', '2', '0'] ['0', '6'] true).render)
      true = .ok ⟨2020, 7, 1, 0, 0, 0⟩
  ∧ Timerange.parse_iso
      (String.mk (IsoString.ym ['2', '0', '2', '0'] ['1', '2'] true).render)
      true = .ok ⟨2021, 1, 1, 0, 0, 0⟩
  ∧ Timerange.parse_iso
      (String.mk (IsoString.ymd ['2', '0', '2', '0'] ['0', '6'] ['1', '5']
        true true).render) true = .ok ⟨2020, 6, 16, 0, 0, 0⟩
  ∧ Timerange.parse_iso
      (String.mk (IsoString.ymdh ['2', '0', '2', '0'] ['0', '6'] ['1', '5']
        ['1', '0'] true true (some 'T')).render) true =
      .ok ⟨2020, 6, 15, 11, 0, 0⟩
  ∧ Timerange.parse_iso
      (String.mk (IsoString.ymdh ['2', '0', '2', '0'] ['0', '6'] ['1', '5']
        ['1', '0'] true true (some 'T')).render) false =
      .ok ⟨2020, 6, 15, 10, 0, 0⟩ :=
  ⟨c1_parse_iso_granularities.1 ['2', '0', '2', '0'] (by decide) (by decide)
    (by decide),
   c1_parse_iso_granularities.2.1 ['2', '0', '2', '0'] ['0', '6'] true
    (by decide) (by decide) (by decide) (by decide) (by decide),
   c1_parse_iso_granularities.2.2.1 ['2', '0', '2', '0'] ['1', '2'] true
    (by decide) (by decide) (by decide) (by decide),
   c1_parse_iso_granularities.2.2.2.1 ['2', '0', '2', '0'] ['0', '6']
    ['1', '5'] true true ⟨2020, 6, 16, 0, 0, 0⟩ (by decide) (by decide)
    (by decide),
   c1_parse_iso_granularities.2.2.2.2.1 ['2', '0', '2', '0'] ['0', '6']
    ['1', '5'] ['1', '0'] true true (some 'T') ⟨2020, 6, 15, 11, 0, 0⟩
    (by decide) (by decide) (by decide),
   c1_parse_iso_granularities.2.2.2.2.2
    (IsoString.ymdh ['2', '0', '2', '0'] ['0', '6'] ['1', '5'] ['1', '0']
      true true (some 'T')) (by decide) (by decide)⟩

end Uataq
